import Mathlib

/-!
Shallow embedding of the real-time dispatch core of the taxi app backend
(`src/backend/server.js`).  The server keeps three pieces of shared mutable
state:

* `connectedUsers : Map userId -> {socketId, location, role, lastUpdate}`
  (the Registry),
* `activeDrivers : Set driverId` (the Availability Set),
* `pendingRides : Map rideId -> ride record` (the Ride Ledger).

Socket.IO handlers (`updateLocation`, `driverOnline`, `driverOffline`,
`requestRide`, `acceptRide`, `rejectRide`, `cancelRide`, `completeRide`,
`disconnect`) mutate this state and emit notifications.  We model the inbound
socket-event vocabulary as an inductive `Event`; each event carries the id of
the socket it arrived on (`socket.id` in the handler) and, where the handler
calls `Date.now()`, the current time as a `Nat`.  JS `Map`s are modelled as
insertion-ordered association lists (JS `Map.set` on an existing key keeps its
position), JS `Set`s as duplicate-free insertion-ordered lists.  Coordinates
are JS numbers used only as opaque stored values, modelled as `Int`.
Notifications (`io.to(sid).emit`, `socket.broadcast.emit`, `io.emit`,
`externalIo.emit`) are collected in an output list of `Emission`s; the
`/external` namespace is the Monitoring Feed.
-/

namespace TaxiApp

/-- A latitude/longitude pair (`{ lat, lng }` in the server). -/
structure Loc where
  lat : Int
  lng : Int
  deriving DecidableEq, Repr

/-- A Registry record, as stored by the `updateLocation` handler:
`{ socketId: socket.id, location: { lat, lng }, role, lastUpdate: Date.now() }`. -/
structure Participant where
  socketId : String
  location : Loc
  role : String
  lastUpdate : Nat
  deriving DecidableEq, Repr

/-- A Ride Ledger record, as stored by the `requestRide` handler.  `driverId`
and `acceptedAt` are absent until `acceptRide` sets them (just before it
deletes the record). -/
structure Ride where
  rideId : String
  clientId : String
  pickupLocation : Loc
  destinationLocation : Loc
  clientLocation : Loc
  status : String
  requestedAt : Nat
  driverId : Option String := none
  acceptedAt : Option Nat := none
  deriving DecidableEq, Repr

/-- JS `Map.set k v`: replace the entry for `k` in place if present (JS `Map`
keeps the original insertion position), otherwise append at the end. -/
def mset {α : Type} (k : String) (v : α) : List (String × α) → List (String × α)
  | [] => [(k, v)]
  | (k', v') :: rest => if k' = k then (k, v) :: rest else (k', v') :: mset k v rest

/-- JS `Map.get k`: the value of the first entry whose key is `k`. -/
def mget {α : Type} (k : String) : List (String × α) → Option α
  | [] => none
  | (k', v) :: rest => if k' = k then some v else mget k rest

/-- JS `Map.delete k`: remove the entry keyed `k`. -/
def mdelete {α : Type} (k : String) : List (String × α) → List (String × α)
  | [] => []
  | (k', v) :: rest => if k' = k then mdelete k rest else (k', v) :: mdelete k rest

/-- JS `Set.add x`: append `x` if not already present (JS `Set` keeps insertion
order and ignores duplicates). -/
def sadd (x : String) (s : List String) : List String :=
  if x ∈ s then s else s ++ [x]

/-- JS `Set.delete x`. -/
def sdel (x : String) : List String → List String
  | [] => []
  | y :: rest => if y = x then sdel x rest else y :: sdel x rest

/-- The three pieces of shared mutable state of the server. -/
structure ServerState where
  connectedUsers : List (String × Participant)
  activeDrivers : List String
  pendingRides : List (String × Ride)
  deriving DecidableEq, Repr

/-- The state at server start: all three containers empty. -/
def initState : ServerState := { connectedUsers := [], activeDrivers := [], pendingRides := [] }

/-- Inbound socket events (§6 of the spec).  The first `String` of each
constructor is the id of the socket the event arrived on; `time` stands for
the value of `Date.now()` while the handler runs. -/
inductive Event where
  | updateLocation (sid userId : String) (lat lng : Int) (role : String) (time : Nat)
  | driverOnline (sid userId : String) (time : Nat)
  | driverOffline (sid userId : String) (time : Nat)
  | requestRide (sid rideId userId : String) (pickup dest location : Loc) (time : Nat)
  | acceptRide (sid rideId driverId clientId : String) (time : Nat)
  | rejectRide (sid rideId driverId : String)
  | cancelRide (sid rideId userId : String)
  | completeRide (sid rideId driverId clientId : String) (time : Nat)
  | disconnect (sid : String)
  deriving DecidableEq, Repr

/-- Notification payloads emitted by the handlers.  `rideRequest` carries the
pickup and destination (the server formats them into strings with `toFixed`)
plus `location: pickupLocation`.  The `...Ext` payloads are the richer records
sent to the Monitoring Feed (`externalIo`). -/
inductive Payload where
  | userLocationUpdate (userId : String) (location : Loc) (role : String)
  | driverLocationUpdate (driverId : String) (location : Loc) (time : Nat)
  | driversAvailable (drivers : List String)
  | driverStatusChange (driverId status : String) (time : Nat)
  | rideRequest (rideId userId : String) (pickup dest location : Loc)
  | rideCreated (rideId clientId : String) (pickup dest clientLoc : Loc) (status : String) (time : Nat)
  | rideAccepted (rideId driverId : String)
  | rideAcceptedExt (rideId driverId clientId : String) (pickup dest : Loc) (acceptedAt : Nat)
  | rideCancelled (rideId : String)
  | rideCompleted
  | rideCompletedExt (rideId driverId clientId : String) (completedAt : Nat)
  deriving DecidableEq, Repr

/-- A delivery of a payload: `toSocket sid` is `io.to(sid).emit`,
`broadcastFrom sid` is `socket.broadcast.emit` (everyone but the sender),
`broadcastAll` is `io.emit`, and `toExternal` is `externalIo.emit`
(the Monitoring Feed). -/
inductive Emission where
  | toSocket (socketId : String) (payload : Payload)
  | broadcastFrom (socketId : String) (payload : Payload)
  | broadcastAll (payload : Payload)
  | toExternal (payload : Payload)
  deriving DecidableEq, Repr

/-- One run-to-completion execution of the matching socket handler: the new
state and the list of notifications emitted, in program order.  JS truthiness
of `driverData.socketId` / `clientData.socketId` is the string being
nonempty. -/
def step (e : Event) (s : ServerState) : ServerState × List Emission :=
  match e with
  | .updateLocation sid userId lat lng role t =>
      let p : Participant := { socketId := sid, location := { lat := lat, lng := lng }, role := role, lastUpdate := t }
      let users := mset userId p s.connectedUsers
      let drivers := if role = "driver" then sadd userId s.activeDrivers else s.activeDrivers
      ({ s with connectedUsers := users, activeDrivers := drivers },
        Emission.broadcastFrom sid (.userLocationUpdate userId { lat := lat, lng := lng } role) ::
          (if role = "driver" then [Emission.toExternal (.driverLocationUpdate userId { lat := lat, lng := lng } t)] else []))
  | .driverOnline _ userId t =>
      let drivers := sadd userId s.activeDrivers
      ({ s with activeDrivers := drivers },
        [Emission.broadcastAll (.driversAvailable drivers),
         Emission.toExternal (.driverStatusChange userId "online" t)])
  | .driverOffline _ userId t =>
      let drivers := sdel userId s.activeDrivers
      ({ s with activeDrivers := drivers },
        [Emission.broadcastAll (.driversAvailable drivers),
         Emission.toExternal (.driverStatusChange userId "offline" t)])
  | .requestRide _ rideId userId pickup dest loc t =>
      let ride : Ride := { rideId := rideId, clientId := userId, pickupLocation := pickup,
                           destinationLocation := dest, clientLocation := loc,
                           status := "pending", requestedAt := t }
      let offers := s.activeDrivers.filterMap fun d =>
        match mget d s.connectedUsers with
        | some dd => if dd.socketId ≠ "" then some (Emission.toSocket dd.socketId (.rideRequest rideId userId pickup dest pickup)) else none
        | none => none
      ({ s with pendingRides := mset rideId ride s.pendingRides },
        offers ++ [Emission.toExternal (.rideCreated rideId userId pickup dest loc "pending" t)])
  | .acceptRide _ rideId driverId clientId t =>
      match mget rideId s.pendingRides with
      | none => (s, [])
      | some ride =>
          let clientMsg :=
            match mget clientId s.connectedUsers with
            | some cd => if cd.socketId ≠ "" then [Emission.toSocket cd.socketId (.rideAccepted rideId driverId)] else []
            | none => []
          ({ s with pendingRides := mdelete rideId s.pendingRides },
            clientMsg ++ [Emission.toExternal (.rideAcceptedExt rideId driverId clientId ride.pickupLocation ride.destinationLocation t)])
  | .rejectRide _ _ _ => (s, [])
  | .cancelRide _ rideId _ =>
      ({ s with pendingRides := mdelete rideId s.pendingRides },
        s.activeDrivers.filterMap fun d =>
          match mget d s.connectedUsers with
          | some dd => if dd.socketId ≠ "" then some (Emission.toSocket dd.socketId (.rideCancelled rideId)) else none
          | none => none)
  | .completeRide _ rideId driverId clientId t =>
      let clientMsg :=
        match mget clientId s.connectedUsers with
        | some cd => if cd.socketId ≠ "" then [Emission.toSocket cd.socketId .rideCompleted] else []
        | none => []
      let drivers := sadd driverId s.activeDrivers
      ({ s with activeDrivers := drivers },
        clientMsg ++ [Emission.toExternal (.rideCompletedExt rideId driverId clientId t),
          Emission.broadcastAll (.driversAvailable drivers),
          Emission.toExternal (.driverStatusChange driverId "online" t)])
  | .disconnect sid =>
      match s.connectedUsers.find? (fun p => p.2.socketId == sid) with
      | none => (s, [])
      | some (userId, ud) =>
          let users := mdelete userId s.connectedUsers
          if ud.role = "driver" then
            let drivers := sdel userId s.activeDrivers
            ({ s with connectedUsers := users, activeDrivers := drivers },
              [Emission.broadcastAll (.driversAvailable drivers)])
          else
            ({ s with connectedUsers := users }, [])

/-- Run a sequence of inbound events from a given state, one to completion
before the next begins (the server's single-threaded discipline). -/
def runFrom (s : ServerState) (evs : List Event) : ServerState :=
  evs.foldl (fun st e => (step e st).1) s

/-- Run a sequence of inbound events from the empty initial state. -/
def run (evs : List Event) : ServerState :=
  runFrom initState evs

/-- The `drivers` field of the `initialData` snapshot sent to a freshly
connected Monitoring Feed subscriber: every Availability Set member that has
a Registry record, with its stored location and `lastUpdate` (entries without
a Registry record are mapped to `null` and removed by `.filter(Boolean)`). -/
def initialDataDrivers (s : ServerState) : List (String × Loc × Nat) :=
  s.activeDrivers.filterMap fun d =>
    match mget d s.connectedUsers with
    | some dd => some (d, dd.location, dd.lastUpdate)
    | none => none

/-- A row of the `pendingRides` field of the `initialData` snapshot. -/
structure RideSnap where
  rideId : String
  clientId : String
  pickupLocation : Loc
  destinationLocation : Loc
  status : String
  requestedAt : Nat
  deriving DecidableEq, Repr

/-- The `pendingRides` field of the `initialData` snapshot: every Ride Ledger
value, projected to its public fields. -/
def initialDataRides (s : ServerState) : List RideSnap :=
  s.pendingRides.map fun p =>
    { rideId := p.2.rideId, clientId := p.2.clientId, pickupLocation := p.2.pickupLocation,
      destinationLocation := p.2.destinationLocation, status := p.2.status,
      requestedAt := p.2.requestedAt }

/-! ### Association-list map lemmas -/

theorem mget_mset_self {α : Type} (k : String) (v : α) (m : List (String × α)) :
    mget k (mset k v m) = some v := by
  induction m with
  | nil => simp [mset, mget]
  | cons p rest ih =>
      obtain ⟨k', v'⟩ := p
      by_cases h : k' = k
      · simp [mset, h, mget]
      · simp [mset, h, mget, ih]

theorem mget_mset_ne {α : Type} (k k' : String) (v : α) (m : List (String × α))
    (h : k' ≠ k) : mget k (mset k' v m) = mget k m := by
  induction m with
  | nil => simp [mset, mget, h]
  | cons p rest ih =>
      obtain ⟨k'', v''⟩ := p
      by_cases h2 : k'' = k'
      · subst h2
        simp [mset, mget, h]
      · by_cases h3 : k'' = k
        · subst h3
          simp [mset, h2, mget]
        · simp [mset, h2, mget, h3, ih]

theorem mem_mset {α : Type} (k : String) (v : α) (m : List (String × α))
    (p : String × α) (hp : p ∈ mset k v m) : p = (k, v) ∨ p ∈ m := by
  induction m with
  | nil => simpa [mset] using hp
  | cons q rest ih =>
      obtain ⟨k', v'⟩ := q
      by_cases h : k' = k
      · simp only [mset, if_pos h, List.mem_cons] at hp
        rcases hp with hp | hp
        · exact Or.inl hp
        · exact Or.inr (List.mem_cons_of_mem _ hp)
      · simp only [mset, if_neg h, List.mem_cons] at hp
        rcases hp with hp | hp
        · exact Or.inr (by simp [hp])
        · rcases ih hp with hp | hp
          · exact Or.inl hp
          · exact Or.inr (List.mem_cons_of_mem _ hp)

theorem mem_mdelete {α : Type} (k : String) (m : List (String × α))
    (p : String × α) (hp : p ∈ mdelete k m) : p ∈ m ∧ p.1 ≠ k := by
  induction m with
  | nil => simp [mdelete] at hp
  | cons q rest ih =>
      obtain ⟨k', v'⟩ := q
      by_cases h : k' = k
      · simp only [mdelete, if_pos h] at hp
        exact ⟨List.mem_cons_of_mem _ (ih hp).1, (ih hp).2⟩
      · simp only [mdelete, if_neg h, List.mem_cons] at hp
        rcases hp with hp | hp
        · subst hp
          exact ⟨List.mem_cons_self _ _, h⟩
        · exact ⟨List.mem_cons_of_mem _ (ih hp).1, (ih hp).2⟩

theorem mget_mdelete_self {α : Type} (k : String) (m : List (String × α)) :
    mget k (mdelete k m) = none := by
  induction m with
  | nil => rfl
  | cons p rest ih =>
      obtain ⟨k', v'⟩ := p
      by_cases h : k' = k
      · simp [mdelete, h, ih]
      · simp [mdelete, h, mget, ih]

theorem mget_mdelete_ne {α : Type} (k k' : String) (m : List (String × α))
    (h : k ≠ k') : mget k (mdelete k' m) = mget k m := by
  induction m with
  | nil => rfl
  | cons p rest ih =>
      obtain ⟨k'', v''⟩ := p
      by_cases h2 : k'' = k'
      · subst h2
        have h3 : k'' ≠ k := fun hq => h (hq ▸ rfl)
        simp [mdelete, mget, h3, ih]
      · by_cases h3 : k'' = k
        · subst h3
          simp [mdelete, h2, mget]
        · simp [mdelete, h2, mget, h3, ih]

theorem mget_mem {α : Type} (k : String) (v : α) (m : List (String × α))
    (h : mget k m = some v) : (k, v) ∈ m := by
  induction m with
  | nil => simp [mget] at h
  | cons p rest ih =>
      obtain ⟨k', v'⟩ := p
      by_cases h2 : k' = k
      · subst h2
        simp [mget] at h
        subst h
        exact List.mem_cons_self _ _
      · simp only [mget, if_neg h2] at h
        exact List.mem_cons_of_mem _ (ih h)

theorem sdel_eq_of_not_mem (x : String) (s : List String) (h : x ∉ s) :
    sdel x s = s := by
  induction s with
  | nil => rfl
  | cons y rest ih =>
      have hy : y ≠ x := fun hq => h (hq ▸ List.mem_cons_self _ _)
      simp only [sdel, if_neg hy]
      rw [ih (fun hq => h (List.mem_cons_of_mem _ hq))]

theorem mem_sadd (x y : String) (s : List String) (h : x ∈ s) : x ∈ sadd y s := by
  unfold sadd
  by_cases hy : y ∈ s
  · simpa [hy]
  · simp [hy, List.mem_append, h]

/-! ### C1: the Registry is last-write-wins for `updateLocation` -/

/-- Recognizer for `updateLocation` events. -/
def isUpd : Event → Bool
  | .updateLocation _ _ _ _ _ _ => true
  | _ => false

/-- The payload `(lat, lng, time)` of the most recent `updateLocation` event
for id `u` in an event sequence (later events take precedence), if any. -/
def lastUpd (u : String) : List Event → Option (Int × Int × Nat)
  | [] => none
  | e :: rest =>
      match lastUpd u rest with
      | some r => some r
      | none =>
          match e with
          | .updateLocation _ u' lat lng _ t => if u' = u then some (lat, lng, t) else none
          | _ => none

theorem runFrom_upd (s : ServerState) (evs : List Event)
    (hupd : ∀ e ∈ evs, isUpd e = true) (u : String) :
    (mget u (runFrom s evs).connectedUsers).map (fun p => (p.location, p.lastUpdate)) =
      match lastUpd u evs with
      | some r => some ({ lat := r.1, lng := r.2.1 }, r.2.2)
      | none => (mget u s.connectedUsers).map (fun p => (p.location, p.lastUpdate)) := by
  induction evs generalizing s with
  | nil => simp [runFrom, lastUpd]
  | cons e rest ih =>
      have he : isUpd e = true := hupd e (List.mem_cons_self _ _)
      have hrest : ∀ e' ∈ rest, isUpd e' = true :=
        fun e' h' => hupd e' (List.mem_cons_of_mem _ h')
      cases e with
      | updateLocation sid u' lat lng role t =>
          have hstep : runFrom s (Event.updateLocation sid u' lat lng role t :: rest) =
              runFrom (step (Event.updateLocation sid u' lat lng role t) s).1 rest := rfl
          rw [hstep, ih _ hrest]
          cases hl : lastUpd u rest with
          | some r => simp [lastUpd, hl]
          | none =>
              by_cases hu : u' = u
              · subst hu
                simp [lastUpd, hl, step, mget_mset_self]
              · simp [lastUpd, hl, hu, step, mget_mset_ne u u' _ _ hu]
      | driverOnline sid uid t => simp [isUpd] at he
      | driverOffline sid uid t => simp [isUpd] at he
      | requestRide sid rid uid p d l t => simp [isUpd] at he
      | acceptRide sid rid did cid t => simp [isUpd] at he
      | rejectRide sid rid did => simp [isUpd] at he
      | cancelRide sid rid uid => simp [isUpd] at he
      | completeRide sid rid did cid t => simp [isUpd] at he
      | disconnect sid => simp [isUpd] at he

/-- C1: for every sequence consisting only of `updateLocation` events applied
from the empty Registry, the stored location and `lastUpdate` of a participant
id equal the `lat`/`lng` (and processing time) of the most recent
`updateLocation` event for that id; ids with no update are absent (the
left-hand side is `none` exactly when `mget` is `none`). -/
theorem c1_registry_last_write (evs : List Event)
    (hupd : ∀ e ∈ evs, isUpd e = true) (u : String) :
    (mget u (run evs).connectedUsers).map (fun p => (p.location, p.lastUpdate)) =
      (lastUpd u evs).map (fun r => ({ lat := r.1, lng := r.2.1 }, r.2.2)) := by
  rw [run, runFrom_upd initState evs hupd u]
  cases hl : lastUpd u evs with
  | some r => simp
  | none => simp [initState, mget]

/-- Witness for C1 at a concrete two-update sequence for the same id. -/
theorem c1_registry_last_write_witness :
    (mget "U1" (run [Event.updateLocation "s1" "U1" 1 2 "driver" 10,
        Event.updateLocation "s1" "U1" 3 4 "driver" 20]).connectedUsers).map
        (fun p => (p.location, p.lastUpdate)) =
      (lastUpd "U1" [Event.updateLocation "s1" "U1" 1 2 "driver" 10,
        Event.updateLocation "s1" "U1" 3 4 "driver" 20]).map
        (fun r => ({ lat := r.1, lng := r.2.1 }, r.2.2)) :=
  c1_registry_last_write _ (by decide) "U1"

/-! ### C2: Ride Ledger invariant -/

/-- The Ride Ledger invariant: keys are pairwise distinct (at most one record
per ride id) and every stored record has status `"pending"`. -/
def LedgerInv (s : ServerState) : Prop :=
  s.pendingRides.Pairwise (fun a b => a.1 ≠ b.1) ∧
    ∀ p ∈ s.pendingRides, p.2.status = "pending"

theorem pairwise_mset {α : Type} (k : String) (v : α) (m : List (String × α))
    (h : m.Pairwise (fun a b => a.1 ≠ b.1)) :
    (mset k v m).Pairwise (fun a b => a.1 ≠ b.1) := by
  induction m with
  | nil => simp [mset]
  | cons p rest ih =>
      obtain ⟨k', v'⟩ := p
      rcases List.pairwise_cons.mp h with ⟨hhead, htail⟩
      by_cases hk : k' = k
      · subst hk
        simp only [mset, if_pos rfl]
        exact List.pairwise_cons.mpr ⟨hhead, htail⟩
      · simp only [mset, if_neg hk]
        refine List.pairwise_cons.mpr ⟨?_, ih htail⟩
        intro q hq
        rcases mem_mset k v rest q hq with hq' | hq'
        · subst hq'
          exact fun hc => hk hc
        · exact hhead q hq'

theorem pairwise_mdelete {α : Type} (k : String) (m : List (String × α))
    (h : m.Pairwise (fun a b => a.1 ≠ b.1)) :
    (mdelete k m).Pairwise (fun a b => a.1 ≠ b.1) := by
  induction m with
  | nil => simp [mdelete]
  | cons p rest ih =>
      obtain ⟨k', v'⟩ := p
      rcases List.pairwise_cons.mp h with ⟨hhead, htail⟩
      by_cases hk : k' = k
      · simp only [mdelete, if_pos hk]
        exact ih htail
      · simp only [mdelete, if_neg hk]
        refine List.pairwise_cons.mpr ⟨?_, ih htail⟩
        intro q hq
        exact hhead q (mem_mdelete k rest q hq).1

theorem ledgerInv_step (e : Event) (s : ServerState) (h : LedgerInv s) :
    LedgerInv (step e s).1 := by
  obtain ⟨hpair, hpend⟩ := h
  cases e with
  | updateLocation sid u lat lng role t => exact ⟨hpair, hpend⟩
  | driverOnline sid u t => exact ⟨hpair, hpend⟩
  | driverOffline sid u t => exact ⟨hpair, hpend⟩
  | requestRide sid rid uid pickup dest loc t =>
      refine ⟨pairwise_mset _ _ _ hpair, ?_⟩
      intro p hp
      rcases mem_mset _ _ _ p hp with hp' | hp'
      · subst hp'
        rfl
      · exact hpend p hp'
  | acceptRide sid rid did cid t =>
      simp only [step]
      cases hr : mget rid s.pendingRides with
      | none => exact ⟨hpair, hpend⟩
      | some ride =>
          refine ⟨pairwise_mdelete _ _ hpair, ?_⟩
          intro p hp
          exact hpend p (mem_mdelete _ _ p hp).1
  | rejectRide sid rid did => exact ⟨hpair, hpend⟩
  | cancelRide sid rid uid =>
      refine ⟨pairwise_mdelete _ _ hpair, ?_⟩
      intro p hp
      exact hpend p (mem_mdelete _ _ p hp).1
  | completeRide sid rid did cid t => exact ⟨hpair, hpend⟩
  | disconnect sid =>
      simp only [step]
      cases hf : s.connectedUsers.find? (fun p => p.2.socketId == sid) with
      | none => exact ⟨hpair, hpend⟩
      | some p =>
          obtain ⟨uid, ud⟩ := p
          by_cases hrole : ud.role = "driver" <;> simp [hrole] <;> exact ⟨hpair, hpend⟩

theorem ledgerInv_runFrom (s : ServerState) (evs : List Event) (h : LedgerInv s) :
    LedgerInv (runFrom s evs) := by
  induction evs generalizing s with
  | nil => exact h
  | cons e rest ih => exact ih _ (ledgerInv_step e s h)

/-- C2: in every reachable state (any inbound-event sequence run to completion
from the empty initial state) the Ride Ledger holds at most one record per
ride id, and every record it holds has status `"pending"`. -/
theorem c2_ledger_pending_invariant (evs : List Event) :
    (run evs).pendingRides.Pairwise (fun a b => a.1 ≠ b.1) ∧
      ∀ p ∈ (run evs).pendingRides, p.2.status = "pending" :=
  ledgerInv_runFrom initState evs ⟨List.Pairwise.nil, by intro p hp; simp [initState] at hp⟩

/-! ### C3/C4: `acceptRide` -/

/-- C3: from any state in which ride `rid` is in the Ride Ledger, processing
`acceptRide(rid, driverId, clientId)` removes `rid` from the ledger
unconditionally — whatever the client's connectivity — and, whenever
`clientId` is additionally a connected participant (a Registry record with a
live socket handle, i.e. a nonempty socket id), the complete emission list is
exactly one `rideAccepted {rideId, driverId}` directed at that client's
socket followed by the Monitoring Feed mirror — so exactly one
participant-directed `rideAccepted` is sent, and only to that client. -/
theorem c3_accept_removes_and_notifies (s : ServerState)
    (sid rid did cid : String) (t : Nat) (ride : Ride)
    (hr : mget rid s.pendingRides = some ride) :
    mget rid (step (Event.acceptRide sid rid did cid t) s).1.pendingRides = none ∧
      ∀ cd : Participant, mget cid s.connectedUsers = some cd → cd.socketId ≠ "" →
        (step (Event.acceptRide sid rid did cid t) s).2 =
          [Emission.toSocket cd.socketId (.rideAccepted rid did),
           Emission.toExternal (.rideAcceptedExt rid did cid
             ride.pickupLocation ride.destinationLocation t)] := by
  constructor
  · simp only [step, hr]
    exact mget_mdelete_self rid s.pendingRides
  · intro cd hc hsock
    simp [step, hr, hc, hsock]

/-- Witness state for C3: a client registers and requests ride `R1`. -/
def c3WitState : ServerState :=
  run [Event.updateLocation "sC" "C1" 1 1 "client" 1,
    Event.requestRide "sC" "R1" "C1" ⟨1, 1⟩ ⟨2, 2⟩ ⟨1, 1⟩ 2]

/-- Witness for C3: a driver accepts the pending `R1`; the ledger entry is
gone and the connected client's socket gets the single `rideAccepted`. -/
theorem c3_accept_removes_and_notifies_witness :
    mget "R1" (step (Event.acceptRide "sD" "R1" "D1" "C1" 5) c3WitState).1.pendingRides = none ∧
      (step (Event.acceptRide "sD" "R1" "D1" "C1" 5) c3WitState).2 =
        [Emission.toSocket "sC" (.rideAccepted "R1" "D1"),
         Emission.toExternal (.rideAcceptedExt "R1" "D1" "C1" ⟨1, 1⟩ ⟨2, 2⟩ 5)] :=
  ⟨(c3_accept_removes_and_notifies c3WitState "sD" "R1" "D1" "C1" 5
      { rideId := "R1", clientId := "C1", pickupLocation := ⟨1, 1⟩,
        destinationLocation := ⟨2, 2⟩, clientLocation := ⟨1, 1⟩,
        status := "pending", requestedAt := 2 } (by decide)).1,
   (c3_accept_removes_and_notifies c3WitState "sD" "R1" "D1" "C1" 5
      { rideId := "R1", clientId := "C1", pickupLocation := ⟨1, 1⟩,
        destinationLocation := ⟨2, 2⟩, clientLocation := ⟨1, 1⟩,
        status := "pending", requestedAt := 2 } (by decide)).2
     { socketId := "sC", location := ⟨1, 1⟩, role := "client", lastUpdate := 1 }
     (by decide) (by decide)⟩

/-- C4: processing `acceptRide` for a ride id absent from the Ride Ledger
(never requested, already accepted, or already cancelled) is a complete
no-op: the state (Registry, Availability Set and Ride Ledger) is returned
unchanged and no notification of any kind is emitted, neither to a
participant nor to the Monitoring Feed. -/
theorem c4_accept_missing_noop (s : ServerState) (sid rid did cid : String) (t : Nat)
    (hr : mget rid s.pendingRides = none) :
    step (Event.acceptRide sid rid did cid t) s = (s, []) := by
  simp [step, hr]

/-- Witness for C4: a second `acceptRide` for `R1` right after a first
successful one finds the ledger entry gone and does nothing. -/
theorem c4_accept_missing_noop_witness :
    step (Event.acceptRide "sD2" "R1" "D2" "C1" 9)
        (run [Event.updateLocation "sC" "C1" 1 1 "client" 1,
          Event.requestRide "sC" "R1" "C1" ⟨1, 1⟩ ⟨2, 2⟩ ⟨1, 1⟩ 2,
          Event.acceptRide "sD" "R1" "D1" "C1" 5]) =
      (run [Event.updateLocation "sC" "C1" 1 1 "client" 1,
        Event.requestRide "sC" "R1" "C1" ⟨1, 1⟩ ⟨2, 2⟩ ⟨1, 1⟩ 2,
        Event.acceptRide "sD" "R1" "D1" "C1" 5], []) :=
  c4_accept_missing_noop _ "sD2" "R1" "D2" "C1" 9 (by decide)

/-! ### C5/C10: `cancelRide` fan-out

The `cancelRide` handler iterates the Availability Set and, for each member,
looks the driver up in the Registry; members with no Registry record (a
driver that sent `driverOnline` but never `updateLocation`) are silently
skipped.  So the fan-out reaches exactly the Availability Set members with a
reachable connection, and it does so whether or not the ride id is in the
Ride Ledger. -/

theorem cancel_fanout_mem (s : ServerState) (sid rid uid d : String) (dd : Participant)
    (hd : d ∈ s.activeDrivers) (hu : mget d s.connectedUsers = some dd)
    (hsock : dd.socketId ≠ "") :
    Emission.toSocket dd.socketId (.rideCancelled rid) ∈
      (step (Event.cancelRide sid rid uid) s).2 := by
  simp only [step]
  exact List.mem_filterMap.mpr ⟨d, hd, by simp [hu, hsock]⟩

/-- State refuting C5: `D2` enters the Availability Set via `driverOnline`
without ever sending `updateLocation`, so it has no Registry record; then a
ride is requested. -/
def c5CexState : ServerState :=
  run [Event.driverOnline "s2" "D2" 1,
    Event.requestRide "s1" "R1" "C1" ⟨1, 1⟩ ⟨2, 2⟩ ⟨1, 1⟩ 2]

/-- Counterexample to C5 as stated: ride `R1` is pending and `D2` is in the
Availability Set, yet `cancelRide("R1")` emits no notification at all — in
particular `D2` receives no `rideCancelled`, because it has no Registry
record to look a socket up in. -/
theorem c5_cancel_cex :
    "D2" ∈ c5CexState.activeDrivers ∧
      (mget "R1" c5CexState.pendingRides).isSome = true ∧
      (step (Event.cancelRide "s1" "R1" "C1") c5CexState).2 = [] := by
  decide

/-- C5 (amended): for every state in which ride `rid` is in the Ride Ledger,
processing `cancelRide(rid)` removes `rid` from the ledger, and every driver
currently in the Availability Set *that has a registered connection* (a
Registry record with a nonempty socket id) — including drivers added to the
set after the ride was requested — receives a `rideCancelled {rideId}`
notification; Availability Set members with no Registry record are silently
skipped. -/
theorem c5_cancel_notifies_connected_drivers (s : ServerState)
    (sid rid uid : String) (ride : Ride)
    (_hr : mget rid s.pendingRides = some ride) :
    mget rid (step (Event.cancelRide sid rid uid) s).1.pendingRides = none ∧
      ∀ d ∈ s.activeDrivers, ∀ dd : Participant,
        mget d s.connectedUsers = some dd → dd.socketId ≠ "" →
          Emission.toSocket dd.socketId (.rideCancelled rid) ∈
            (step (Event.cancelRide sid rid uid) s).2 := by
  refine ⟨mget_mdelete_self rid s.pendingRides, ?_⟩
  intro d hd dd hu hsock
  exact cancel_fanout_mem s sid rid uid d dd hd hu hsock

/-- Witness state for the amended C5: driver `D1` registers a location, a
second driver `D3` comes online afterwards with a location, ride `R1` is
requested in between. -/
def c5WitState : ServerState :=
  run [Event.updateLocation "sD" "D1" 1 1 "driver" 1,
    Event.driverOnline "sD" "D1" 2,
    Event.requestRide "sC" "R1" "C1" ⟨1, 1⟩ ⟨2, 2⟩ ⟨1, 1⟩ 3,
    Event.updateLocation "sE" "D3" 4 4 "driver" 4,
    Event.driverOnline "sE" "D3" 5]

/-- Witness for the amended C5: cancelling pending `R1` removes it, and both
the pre-existing driver `D1` and the late-joining driver `D3` receive
`rideCancelled`. -/
theorem c5_cancel_notifies_connected_drivers_witness :
    mget "R1" (step (Event.cancelRide "sC" "R1" "C1") c5WitState).1.pendingRides = none ∧
      Emission.toSocket "sD" (.rideCancelled "R1") ∈
        (step (Event.cancelRide "sC" "R1" "C1") c5WitState).2 ∧
      Emission.toSocket "sE" (.rideCancelled "R1") ∈
        (step (Event.cancelRide "sC" "R1" "C1") c5WitState).2 :=
  ⟨(c5_cancel_notifies_connected_drivers c5WitState "sC" "R1" "C1"
      { rideId := "R1", clientId := "C1", pickupLocation := ⟨1, 1⟩,
        destinationLocation := ⟨2, 2⟩, clientLocation := ⟨1, 1⟩,
        status := "pending", requestedAt := 3 } (by decide)).1,
   (c5_cancel_notifies_connected_drivers c5WitState "sC" "R1" "C1"
      { rideId := "R1", clientId := "C1", pickupLocation := ⟨1, 1⟩,
        destinationLocation := ⟨2, 2⟩, clientLocation := ⟨1, 1⟩,
        status := "pending", requestedAt := 3 } (by decide)).2
     "D1" (by decide)
     { socketId := "sD", location := ⟨1, 1⟩, role := "driver", lastUpdate := 1 }
     (by decide) (by decide),
   (c5_cancel_notifies_connected_drivers c5WitState "sC" "R1" "C1"
      { rideId := "R1", clientId := "C1", pickupLocation := ⟨1, 1⟩,
        destinationLocation := ⟨2, 2⟩, clientLocation := ⟨1, 1⟩,
        status := "pending", requestedAt := 3 } (by decide)).2
     "D3" (by decide)
     { socketId := "sE", location := ⟨4, 4⟩, role := "driver", lastUpdate := 4 }
     (by decide) (by decide)⟩

/-- C10: for every ride id — whether or not it is (or ever was) in the Ride
Ledger — processing `cancelRide(rideId)` sends `rideCancelled {rideId}` to
every Availability Set member with a reachable connection (a Registry record
with a nonempty socket id): the fan-out is unconditional on ledger
membership (the statement places no hypothesis on `rid`). -/
theorem c10_cancel_fanout_unconditional (s : ServerState)
    (sid rid uid d : String) (dd : Participant)
    (hd : d ∈ s.activeDrivers) (hu : mget d s.connectedUsers = some dd)
    (hsock : dd.socketId ≠ "") :
    Emission.toSocket dd.socketId (.rideCancelled rid) ∈
      (step (Event.cancelRide sid rid uid) s).2 :=
  cancel_fanout_mem s sid rid uid d dd hd hu hsock

/-- Witness state for C10: one connected online driver, empty Ride Ledger. -/
def c10WitState : ServerState :=
  run [Event.updateLocation "sD" "D1" 1 1 "driver" 1,
    Event.driverOnline "sD" "D1" 2]

/-- Witness for C10: cancelling the never-requested ride id `ghost` still
delivers `rideCancelled {ghost}` to the online driver `D1`. -/
theorem c10_cancel_fanout_unconditional_witness :
    (mget "ghost" c10WitState.pendingRides = none) ∧
      Emission.toSocket "sD" (.rideCancelled "ghost") ∈
        (step (Event.cancelRide "sX" "ghost" "C9") c10WitState).2 :=
  ⟨by decide,
   c10_cancel_fanout_unconditional c10WitState "sX" "ghost" "C9" "D1"
     { socketId := "sD", location := ⟨1, 1⟩, role := "driver", lastUpdate := 1 }
     (by decide) (by decide) (by decide)⟩

/-! ### C6: stored roles

The `updateLocation` handler overwrites the whole Registry record with
`connectedUsers.set(userId, { socketId, location, role, lastUpdate })`, so an
update carrying a different role *does* change the stored role.  No other
handler writes a role. -/

/-- Counterexample to C6 as stated: `U1` is created with role `"driver"`, and
a later `updateLocation` carrying role `"client"` changes the stored role in
place (the participant was never removed). -/
theorem c6_role_cex :
    (mget "U1" (run [Event.updateLocation "s1" "U1" 1 1 "driver" 1]).connectedUsers).map
        Participant.role = some "driver" ∧
      (mget "U1" (run [Event.updateLocation "s1" "U1" 1 1 "driver" 1,
          Event.updateLocation "s1" "U1" 2 2 "client" 2]).connectedUsers).map
        Participant.role = some "client" := by
  decide

/-- C6 (amended): a stored role can change, but only through `updateLocation`,
which overwrites the whole record with the role carried by the event: whenever
a participant record is present after an event, either that event was an
`updateLocation` for this id carrying exactly the stored role, or a record
with the same role was already present before the event.  (No other inbound
event writes a role.) -/
theorem c6_role_provenance (e : Event) (s : ServerState) (u : String) (p : Participant)
    (h : mget u (step e s).1.connectedUsers = some p) :
    (∃ sid lat lng t, e = Event.updateLocation sid u lat lng p.role t) ∨
      (∃ q : Participant, mget u s.connectedUsers = some q ∧ q.role = p.role) := by
  cases e with
  | updateLocation sid u' lat lng role t =>
      by_cases hu : u' = u
      · subst hu
        simp only [step, mget_mset_self, Option.some_inj] at h
        subst h
        exact Or.inl ⟨sid, lat, lng, t, rfl⟩
      · simp only [step, mget_mset_ne u u' _ _ hu] at h
        exact Or.inr ⟨p, h, rfl⟩
  | driverOnline sid uid t => exact Or.inr ⟨p, h, rfl⟩
  | driverOffline sid uid t => exact Or.inr ⟨p, h, rfl⟩
  | requestRide sid rid uid pickup dest loc t => exact Or.inr ⟨p, h, rfl⟩
  | acceptRide sid rid did cid t =>
      refine Or.inr ⟨p, ?_, rfl⟩
      simp only [step] at h
      cases hr : mget rid s.pendingRides with
      | none => simpa [hr] using h
      | some ride => simpa [hr] using h
  | rejectRide sid rid did => exact Or.inr ⟨p, h, rfl⟩
  | cancelRide sid rid uid => exact Or.inr ⟨p, h, rfl⟩
  | completeRide sid rid did cid t => exact Or.inr ⟨p, h, rfl⟩
  | disconnect sid =>
      refine Or.inr ⟨p, ?_, rfl⟩
      simp only [step] at h
      cases hf : s.connectedUsers.find? (fun q => q.2.socketId == sid) with
      | none => simpa [hf] using h
      | some q =>
          obtain ⟨uid, ud⟩ := q
          have h' : mget u (mdelete uid s.connectedUsers) = some p := by
            by_cases hrole : ud.role = "driver" <;> simp [hf, hrole] at h <;> exact h
          by_cases huid : u = uid
          · subst huid
            rw [mget_mdelete_self] at h'
            exact absurd h' (by simp)
          · rwa [mget_mdelete_ne u uid _ huid] at h'

/-- Witness for the amended C6: an `updateLocation` for an existing id with a
different role yields a record whose role came from that very event (the left
disjunct). -/
theorem c6_role_provenance_witness :
    (∃ sid lat lng t, Event.updateLocation "s1" "U1" 5 5 "client" 9 =
        Event.updateLocation sid "U1" lat lng "client" t) ∨
      (∃ q : Participant,
        mget "U1" (run [Event.updateLocation "s1" "U1" 1 1 "driver" 1]).connectedUsers = some q ∧
          q.role = "client") :=
  c6_role_provenance (Event.updateLocation "s1" "U1" 5 5 "client" 9)
    (run [Event.updateLocation "s1" "U1" 1 1 "driver" 1]) "U1"
    { socketId := "s1", location := ⟨5, 5⟩, role := "client", lastUpdate := 9 }
    (by decide)

/-! ### C7: `disconnect` never touches the Ride Ledger -/

/-- C7: processing a `disconnect` leaves the Ride Ledger exactly as it was —
the list of pending ride records (ids and all fields) is unchanged — for
*every* state (in particular every reachable one), even when the
disconnecting socket belongs to the client or driver of a pending ride; the
handler only mutates the Registry and, for drivers, the Availability Set. -/
theorem c7_disconnect_preserves_ledger (s : ServerState) (sid : String) :
    (step (Event.disconnect sid) s).1.pendingRides = s.pendingRides := by
  simp only [step]
  cases hf : s.connectedUsers.find? (fun q => q.2.socketId == sid) with
  | none => rfl
  | some q =>
      obtain ⟨uid, ud⟩ := q
      by_cases hrole : ud.role = "driver" <;> simp [hrole]

/-! ### C8: `driverOffline` is idempotent on state -/

/-- C8: processing `driverOffline(u)` when `u` is already absent from the
Availability Set returns the state completely unchanged (Registry,
Availability Set and Ride Ledger), and still emits both the
`driversAvailable` broadcast (with the unchanged list) to all participants
and the `offline` `driverStatusChange` event to the Monitoring Feed. -/
theorem c8_driver_offline_idempotent (s : ServerState) (sid u : String) (t : Nat)
    (h : u ∉ s.activeDrivers) :
    step (Event.driverOffline sid u t) s =
      (s, [Emission.broadcastAll (.driversAvailable s.activeDrivers),
           Emission.toExternal (.driverStatusChange u "offline" t)]) := by
  simp [step, sdel_eq_of_not_mem u s.activeDrivers h]

/-- Witness state for C8: driver `D1` online, then taken offline once. -/
def c8WitState : ServerState :=
  run [Event.updateLocation "sD" "D1" 1 1 "driver" 1,
    Event.driverOnline "sD" "D1" 2,
    Event.driverOffline "sD" "D1" 3]

/-- Witness for C8: a second `driverOffline` for `D1` changes nothing and
still emits both events. -/
theorem c8_driver_offline_idempotent_witness :
    step (Event.driverOffline "sD" "D1" 4) c8WitState =
      (c8WitState, [Emission.broadcastAll (.driversAvailable c8WitState.activeDrivers),
        Emission.toExternal (.driverStatusChange "D1" "offline" 4)]) :=
  c8_driver_offline_idempotent c8WitState "sD" "D1" 4 (by decide)

/-! ### C9: the `initialData` snapshot -/

/-- C9: a Monitoring Feed subscriber connecting in a state where driver `d`
is in the Availability Set with a Registry record `rec` (so it has a last
known location), and ride `r` is in the Ride Ledger with status `"pending"`
(as it is after `driverOnline(d)` and `requestRide(r, …)` have been
processed), receives an `initialData` snapshot whose driver list contains the
entry `(d, rec.location, rec.lastUpdate)` and whose pending-ride list
contains a row with ride id `r` and status `"pending"`. -/
theorem c9_initial_snapshot (s : ServerState) (d r : String)
    (rec : Participant) (ride : Ride)
    (hd : d ∈ s.activeDrivers) (hrec : mget d s.connectedUsers = some rec)
    (hr : mget r s.pendingRides = some ride) (hid : ride.rideId = r)
    (hst : ride.status = "pending") :
    (d, rec.location, rec.lastUpdate) ∈ initialDataDrivers s ∧
      ∃ snap ∈ initialDataRides s, snap.rideId = r ∧ snap.status = "pending" := by
  constructor
  · exact List.mem_filterMap.mpr ⟨d, hd, by simp [hrec]⟩
  · refine ⟨⟨ride.rideId, ride.clientId, ride.pickupLocation,
      ride.destinationLocation, ride.status, ride.requestedAt⟩, ?_,
      by simpa using hid, by simpa using hst⟩
    exact List.mem_map.mpr ⟨(r, ride), mget_mem r ride s.pendingRides hr, rfl⟩

/-- Witness state for C9: `D1` reports a location and goes online, then `R1`
is requested. -/
def c9WitState : ServerState :=
  run [Event.updateLocation "sD" "D1" 5 6 "driver" 1,
    Event.driverOnline "sD" "D1" 2,
    Event.requestRide "sC" "R1" "C1" ⟨1, 1⟩ ⟨2, 2⟩ ⟨1, 1⟩ 3]

/-- Witness for C9: in `c9WitState` the snapshot contains `D1` with its last
known location and `R1` as a pending ride. -/
theorem c9_initial_snapshot_witness :
    ("D1", Loc.mk 5 6, 1) ∈ initialDataDrivers c9WitState ∧
      ∃ snap ∈ initialDataRides c9WitState, snap.rideId = "R1" ∧ snap.status = "pending" :=
  c9_initial_snapshot c9WitState "D1" "R1"
    { socketId := "sD", location := ⟨5, 6⟩, role := "driver", lastUpdate := 1 }
    { rideId := "R1", clientId := "C1", pickupLocation := ⟨1, 1⟩,
      destinationLocation := ⟨2, 2⟩, clientLocation := ⟨1, 1⟩,
      status := "pending", requestedAt := 3 }
    (by decide) (by decide) (by decide) (by decide) (by decide)

end TaxiApp
